import Mathlib

/-!
Verification of the UniversalScanner application (universalscanner.py).

The Python source is shallowly embedded: text handled character by
character is modelled as `List Char`; the tkinter widgets, dialogs and
the file system are modelled as explicit inputs and outputs (a read is a
function `String → Option String`, a performed write is an `FSWrite`
value, a dialog answer is a parameter).  Every definition mirrors one
function or code region of the source; the theorems at the end settle
the specification claims.
-/

namespace Scanner

/-! ## Text primitives (Python string operations restricted to LF-separated text) -/

/-- Python text as a list of characters. -/
abbrev Str := List Char

/-- The whitespace characters removed by Python `str.strip()`. -/
def isPyWS (c : Char) : Bool :=
  c = ' ' || c = '\t' || c = '\n' || c = '\r' || c = '\x0b' || c = '\x0c'

/-- Python `s.strip()`: remove leading and trailing whitespace. -/
def strip (s : Str) : Str :=
  ((s.dropWhile isPyWS).reverse.dropWhile isPyWS).reverse

/-- Helper for `splitOnC`: prepend a character to the first piece. -/
def consHead (c : Char) : List Str → List Str
  | [] => [[c]]
  | l :: ls => (c :: l) :: ls

/-- Python `s.split(sep)` for a single-character separator. -/
def splitOnC (sep : Char) : Str → List Str
  | [] => [[]]
  | c :: rest =>
    if c = sep then [] :: splitOnC sep rest
    else consHead c (splitOnC sep rest)

/-- Python `s.splitlines()` for LF-separated text: split on the newline
character; a trailing newline does not produce a final empty line. -/
def pySplitlines (s : Str) : List Str :=
  if s = [] then []
  else if s.getLast? = some '\n' then (splitOnC '\n' s).dropLast
  else splitOnC '\n' s

/-- Python `f.ljust(15)`: pad on the right with spaces up to width 15;
a longer string is returned unchanged. -/
def ljust15 (f : Str) : Str :=
  f ++ List.replicate (15 - f.length) ' '

/-- Python `"\n".join(lines)`. -/
def joinLines : List Str → Str
  | [] => []
  | [l] => l
  | l :: ls => l ++ '\n' :: joinLines ls

/-! ## Quantities formatter (UniversalScannerApp._format_csv_like_text, lines 593-600) -/

/-- One iteration of the formatter loop body: split the line on commas,
strip each field, drop fields that strip to empty, pad each survivor to
width 15 and concatenate with no separator. -/
def fmtLine (ln : Str) : Str :=
  let fields := ((splitOnC ',' ln).map strip).filter (fun t => !t.isEmpty)
  (fields.map ljust15).flatten

/-- Model of `UniversalScannerApp._format_csv_like_text`: drop
blank/whitespace-only lines, format each remaining line, join with
newlines and append a trailing newline only when some output line
exists. -/
def format_csv_like_text (content : Str) : Str :=
  let lines := (pySplitlines content).filter (fun ln => !(strip ln).isEmpty)
  let out_lines := lines.map fmtLine
  joinLines out_lines ++ (if out_lines.isEmpty then [] else ['\n'])

/-! ## Project data model (dataclasses ImageData, BranchData, ProjectData) -/

/-- Model of the `ImageData` dataclass.  The GUI thumbnail field
(`tk_image`) is rendering state and is omitted; bytes are kept
abstractly as a `String`. -/
structure ImageData where
  original_path : String
  image_bytes : String
deriving DecidableEq

/-- Model of the `BranchData` dataclass. -/
structure BranchData where
  name : String
  prompt : String
  image_paths : List String
  images : List ImageData
deriving DecidableEq

/-- Model of the `ProjectData` dataclass. -/
structure ProjectData where
  story : String
  branches : List BranchData
deriving DecidableEq

/-- One entry of the `Branches` array of the manifest `project.json`. -/
structure ManifestBranch where
  Name : String
  Prompt : String
  ImagePaths : List String
deriving DecidableEq

/-- The manifest object written to `project.json`. -/
structure Manifest where
  Story : String
  Branches : List ManifestBranch
deriving DecidableEq

/-! ## Persistence (save_project lines 396-459, load_project lines 461-530) -/

/-- Model of `os.path.basename` for slash-separated paths: the suffix
after the last slash. -/
def basename (p : String) : String :=
  String.mk ((p.data.reverse.takeWhile (fun c => c != '/')).reverse)

/-- Model of `os.path.join` for two components. -/
def joinPath (dir nm : String) : String :=
  dir ++ "/" ++ nm

/-- The image-copy loop of `save_project` for one branch (lines
424-436): for each image attempt the copy (`copyOk` tells whether
`shutil.copy2` succeeds on that source path); a failed copy shows a
warning and is skipped (`continue`), a successful copy appends the base
name to the branch image paths. -/
def save_branch_paths (copyOk : String → Bool) (imgs : List ImageData) : List String :=
  imgs.filterMap (fun img =>
    if copyOk img.original_path then some (basename img.original_path) else none)

/-- The JSON object built by `save_project` (lines 439-449). -/
def save_manifest (proj : ProjectData) (copyOk : String → Bool) : Manifest :=
  { Story := proj.story
    Branches := proj.branches.map (fun b =>
      { Name := b.name
        Prompt := b.prompt
        ImagePaths := save_branch_paths copyOk b.images }) }

/-- Outcome of a save attempt. -/
inductive SaveResult where
  | alreadyExists
  | manifestWriteFailed
  | ok (m : Manifest)
deriving DecidableEq

/-- A write performed on the file system during a save. -/
inductive FSWrite where
  | mkdir (path : String)
  | copyFile (src : String) (dst : String)
  | writeManifest (path : String) (m : Manifest)
deriving DecidableEq

/-- Model of `UniversalScannerApp.save_project` (lines 408-457), from
the point where the destination path is known.  Inputs `dirExists`,
`copyOk` and `manifestWriteOk` model the file-system answers; the
result pairs the reported outcome with the list of writes actually
performed on the file system.  If the destination already exists the
save stops at once with an error and performs no write; otherwise the
directory is created, every successful image copy is performed (a
failed copy is skipped and the loop continues), and finally the
manifest is written, whose failure alone aborts the save with an
error. -/
def save_project (proj : ProjectData) (projectPath : String) (dirExists : Bool)
    (copyOk : String → Bool) (manifestWriteOk : Bool) : SaveResult × List FSWrite :=
  if dirExists then (SaveResult.alreadyExists, [])
  else
    let copies := proj.branches.flatMap (fun b =>
      (b.images.filter (fun img => copyOk img.original_path)).map (fun img =>
        FSWrite.copyFile img.original_path (joinPath projectPath (basename img.original_path))))
    let m := save_manifest proj copyOk
    if manifestWriteOk then
      (SaveResult.ok m,
        FSWrite.mkdir projectPath :: copies ++ [FSWrite.writeManifest (joinPath projectPath "project.json") m])
    else (SaveResult.manifestWriteFailed, FSWrite.mkdir projectPath :: copies)

/-- The per-branch reconstruction loop of `load_project` (lines
490-528): rebuild the branch from its manifest entry and, for each
recorded image path, resolve it against the project directory and read
it; a missing or unreadable file (`readFile` returns `none`) is
silently skipped. -/
def load_branch (dir : String) (readFile : String → Option String)
    (b : ManifestBranch) : BranchData :=
  { name := b.Name
    prompt := b.Prompt
    image_paths := b.ImagePaths
    images := b.ImagePaths.filterMap (fun imgName =>
      (readFile (joinPath dir imgName)).map (fun bytes =>
        { original_path := joinPath dir imgName, image_bytes := bytes })) }

/-- The project reconstructed by `UniversalScannerApp.load_project`
(lines 486-530) from a successfully parsed manifest. -/
def load_project (m : Manifest) (dir : String) (readFile : String → Option String) : ProjectData :=
  { story := m.Story
    branches := m.Branches.map (load_branch dir readFile) }

/-! ## Branch creation and image upload (add_branch lines 217-235, upload_images lines 237-296) -/

/-- The fixed prompt pool `self.random_prompts` (lines 57-65). -/
def random_prompts : List String :=
  ["A futuristic city skyline at sunset",
   "An enchanted forest with glowing mushrooms and mythical creatures",
   "A steampunk-inspired mechanical dragon in a Victorian-era workshop",
   "A tranquil beach with crystal clear water and a lone palm tree",
   "A portrait of a wise old wizard with a long white beard, holding a crystal ball",
   "A bustling medieval marketplace with vendors, shoppers, and street performers",
   "A surreal landscape with floating islands and waterfalls that flow upwards"]

/-- Model of `random.Random.choice`: the pseudo-random draw is made
explicit as an index `pick`, reduced modulo the pool size. -/
def choice (pick : Nat) (l : List String) : String :=
  l.getD (pick % l.length) ""

/-- Model of `UniversalScannerApp.add_branch` acting on the branch
list.  `branch_name` is the dialog answer (`""` also stands for a
cancelled dialog, both falsy in Python); `if not branch_name` rejects
exactly the empty string, any other name is appended with a prompt
drawn from the pool. -/
def add_branch (branches : List BranchData) (branch_name : String) (pick : Nat) : List BranchData :=
  if branch_name = "" then branches
  else branches ++ [{ name := branch_name
                      prompt := choice pick random_prompts
                      image_paths := []
                      images := [] }]

/-- Model of `UniversalScannerApp.upload_images` acting on one branch
image list.  `files` pairs each chosen file name with its read result
(`none` models an unreadable file).  An empty selection returns at
once; if the existing count plus the batch size exceeds 2 the whole
batch is rejected; otherwise each readable file is appended (an
unreadable one shows an error and is skipped). -/
def upload_images (images : List ImageData) (files : List (String × Option String)) : List ImageData :=
  if files.isEmpty then images
  else if images.length + files.length > 2 then images
  else images ++ files.filterMap (fun pr =>
    pr.2.map (fun bytes => { original_path := pr.1, image_bytes := bytes }))

/-! ## Tree / selection controller (on_tree_select lines 298-324, clear_project_data lines 532-546) -/

/-- A resolved tree node: the source maps tree item ids to `BranchData`
or `ImageData` objects through `node_data`; here a node carries the
index of its branch (and image position), which is what
`_get_branch_item_for` recovers by climbing to the root item. -/
inductive NodeRef where
  | branch (i : Nat)
  | image (b : Nat) (j : Nat)
deriving DecidableEq

/-- The branch index that `_get_branch_item_for` resolves a node to:
an image node belongs to its parent branch, a branch node to itself. -/
def branch_index_of : NodeRef → Nat
  | NodeRef.branch i => i
  | NodeRef.image b _ => b

/-- The in-memory application state touched by the controller: the
branch list, the tree item mapping, the active branch, and the two text
widgets (prompt and story). -/
structure AppState where
  branches : List BranchData
  node_data : List NodeRef
  current_branch : Option Nat
  prompt_text : String
  story_text : String
deriving DecidableEq

/-- Python `s.rstrip(chr 10)`: drop trailing newline characters. -/
def rstripNl (s : String) : String :=
  String.mk ((s.data.reverse.dropWhile (fun c => c = '\n')).reverse)

/-- Replace the prompt of the branch at position `i`. -/
def setPromptAt : List BranchData → Nat → String → List BranchData
  | [], _, _ => []
  | b :: bs, 0, p => { b with prompt := p } :: bs
  | b :: bs, Nat.succ n, p => b :: setPromptAt bs n p

/-- The commit step at the top of `on_tree_select` (lines 300-301) and
of `save_project` (lines 398-399): if a branch is active, store the
prompt widget text (trailing newlines stripped) into that branch. -/
def commit_current_prompt (st : AppState) : AppState :=
  match st.current_branch with
  | none => st
  | some i => { st with branches := setPromptAt st.branches i (rstripNl st.prompt_text) }

/-- Model of `UniversalScannerApp.on_tree_select` (lines 298-324):
first commit the active branch prompt, then, if something is selected,
resolve its branch; a valid branch becomes current and its prompt is
displayed, otherwise the current branch is cleared along with the
prompt widget.  The image-preview side effect is rendering only and is
not part of the state. -/
def on_tree_select (st : AppState) (selected : Option NodeRef) : AppState :=
  let st1 := commit_current_prompt st
  match selected with
  | none => st1
  | some node =>
    match st1.branches.get? (branch_index_of node) with
    | some b => { st1 with current_branch := some (branch_index_of node), prompt_text := b.prompt }
    | none => { st1 with current_branch := none, prompt_text := "" }

/-- Model of `UniversalScannerApp.clear_project_data` (lines 532-546):
every piece of project state is reset. -/
def clear_project_data (_st : AppState) : AppState :=
  { branches := []
    node_data := []
    current_branch := none
    prompt_text := ""
    story_text := "" }

/-- The tree item mapping built by the `load_project` loops: one branch
node per branch in order, each followed by one image node per loaded
image. -/
def mkNodeData (bs : List BranchData) : List NodeRef :=
  (bs.enum.map (fun p =>
    NodeRef.branch p.1 :: p.2.images.enum.map (fun q => NodeRef.image p.1 q.1))).flatten

/-- Model of `UniversalScannerApp.load_project` at the application
level (lines 477-530), from the point where the manifest file has been
chosen.  `parsed` is the result of reading and JSON-parsing the file:
`none` (unreadable file or invalid JSON) shows an error and returns
with the state untouched; only on `some` manifest is the old state
cleared and the new project installed. -/
def load_project_app (st : AppState) (parsed : Option Manifest) (dir : String)
    (readFile : String → Option String) : AppState :=
  match parsed with
  | none => st
  | some m =>
    let st0 := clear_project_data st
    let proj := load_project m dir readFile
    { st0 with
      story_text := m.Story
      branches := proj.branches
      node_data := mkNodeData proj.branches }

/-! ## Concrete sample data used by witnesses and counterexamples -/

/-- A sample project with one branch holding two images. -/
def sampleProject : ProjectData :=
  { story := "once"
    branches := [{ name := "A"
                   prompt := "p"
                   image_paths := []
                   images := [{ original_path := "srcdir/x.png", image_bytes := "xb" },
                              { original_path := "srcdir/y.png", image_bytes := "yb" }] }] }

/-- A load-time disk state where only the copied file `x.png` is still
readable. -/
def sampleReadFile : String → Option String :=
  fun p => if p = "d/x.png" then some "xb" else none

/-- The branch of `sampleProject`. -/
def sampleBranchSaved : BranchData :=
  { name := "A"
    prompt := "p"
    image_paths := []
    images := [{ original_path := "srcdir/x.png", image_bytes := "xb" },
               { original_path := "srcdir/y.png", image_bytes := "yb" }] }

/-- The branch reconstructed when loading the saved `sampleProject`
under `sampleReadFile`. -/
def sampleBranchLoaded : BranchData :=
  { name := "A"
    prompt := "p"
    image_paths := ["x.png", "y.png"]
    images := [{ original_path := "d/x.png", image_bytes := "xb" }] }

/-- A manifest whose single branch records three image paths. -/
def overfullManifest : Manifest :=
  { Story := ""
    Branches := [{ Name := "B", Prompt := "", ImagePaths := ["a.png", "b.png", "c.png"] }] }

/-- A branch list holding two images, for capacity witnesses. -/
def twoImages : List ImageData :=
  [{ original_path := "a.png", image_bytes := "b1" },
   { original_path := "b.png", image_bytes := "b2" }]

/-- A sample controller state with branch 0 active and unsaved prompt
edits in the widget. -/
def sampleState : AppState :=
  { branches := [{ name := "A", prompt := "pa", image_paths := [], images := [] },
                 { name := "B", prompt := "pb", image_paths := [], images := [] }]
    node_data := [NodeRef.branch 0, NodeRef.branch 1]
    current_branch := some 0
    prompt_text := "edited"
    story_text := "" }

end Scanner

namespace Scanner

/-! ## Line-splitting lemmas -/

theorem splitOnC_ne_nil (sep : Char) (s : Str) : splitOnC sep s ≠ [] := by
  induction s with
  | nil => simp [splitOnC]
  | cons c rest ih =>
    by_cases h : c = sep
    · simp [splitOnC, h]
    · rw [splitOnC, if_neg h]
      cases hr : splitOnC sep rest with
      | nil => simp [consHead]
      | cons l ls => simp [consHead]

theorem mem_of_mem_splitOnC (sep c : Char) :
    ∀ (s l : Str), l ∈ splitOnC sep s → c ∈ l → c ∈ s := by
  intro s
  induction s with
  | nil =>
    intro l hl hc
    simp [splitOnC] at hl
    subst hl
    simp at hc
  | cons a rest ih =>
    intro l hl hc
    by_cases h : a = sep
    · rw [splitOnC, if_pos h] at hl
      rcases List.mem_cons.mp hl with h1 | h1
      · subst h1; simp at hc
      · exact List.mem_cons_of_mem a (ih l h1 hc)
    · rw [splitOnC, if_neg h] at hl
      cases hr : splitOnC sep rest with
      | nil => exact absurd hr (splitOnC_ne_nil sep rest)
      | cons l0 ls =>
        rw [hr] at hl
        simp only [consHead] at hl
        rcases List.mem_cons.mp hl with h1 | h1
        · subst h1
          rcases List.mem_cons.mp hc with h2 | h2
          · rw [h2]; exact List.mem_cons_self a rest
          · exact List.mem_cons_of_mem a
              (ih l0 (by rw [hr]; exact List.mem_cons_self l0 ls) h2)
        · exact List.mem_cons_of_mem a
            (ih l (by rw [hr]; exact List.mem_cons_of_mem l0 h1) hc)

theorem not_mem_splitOnC (sep : Char) :
    ∀ (s : Str), ∀ l ∈ splitOnC sep s, sep ∉ l := by
  intro s
  induction s with
  | nil =>
    intro l hl
    simp [splitOnC] at hl
    subst hl
    simp
  | cons a rest ih =>
    intro l hl
    by_cases h : a = sep
    · rw [splitOnC, if_pos h] at hl
      rcases List.mem_cons.mp hl with h1 | h1
      · subst h1; simp
      · exact ih l h1
    · rw [splitOnC, if_neg h] at hl
      cases hr : splitOnC sep rest with
      | nil => exact absurd hr (splitOnC_ne_nil sep rest)
      | cons l0 ls =>
        rw [hr] at hl
        simp only [consHead] at hl
        rcases List.mem_cons.mp hl with h1 | h1
        · subst h1
          intro hmem
          rcases List.mem_cons.mp hmem with h2 | h2
          · exact h h2.symm
          · exact ih l0 (by rw [hr]; exact List.mem_cons_self l0 ls) h2
        · exact ih l (by rw [hr]; exact List.mem_cons_of_mem l0 h1)

theorem splitOnC_line (l rest : Str) (h : '\n' ∉ l) :
    splitOnC '\n' (l ++ '\n' :: rest) = l :: splitOnC '\n' rest := by
  induction l with
  | nil => simp [splitOnC]
  | cons c l2 ih =>
    have hc : ¬ (c = '\n') := fun hh => h (hh ▸ List.mem_cons_self c l2)
    have h2 : '\n' ∉ l2 := fun hh => h (List.mem_cons_of_mem c hh)
    rw [List.cons_append, splitOnC, if_neg hc, ih h2]
    rfl

theorem splitOnC_joinLines :
    ∀ (ls : List Str), ls ≠ [] → (∀ l ∈ ls, '\n' ∉ l) →
      splitOnC '\n' (joinLines ls ++ ['\n']) = ls ++ [[]] := by
  intro ls
  induction ls with
  | nil => intro hne _; exact absurd rfl hne
  | cons o os ih =>
    intro _ h
    cases os with
    | nil =>
      have hj : joinLines [o] ++ ['\n'] = o ++ '\n' :: [] := rfl
      rw [hj, splitOnC_line o [] (h o (List.mem_cons_self o []))]
      rfl
    | cons o2 os2 =>
      have hj : joinLines (o :: o2 :: os2) = o ++ '\n' :: joinLines (o2 :: os2) := rfl
      rw [hj, List.append_assoc, List.cons_append,
        splitOnC_line o _ (h o (List.mem_cons_self o _)),
        ih (List.cons_ne_nil o2 os2) (fun l hl => h l (List.mem_cons_of_mem o hl))]
      rfl

theorem strip_subset (s : Str) (c : Char) (hc : c ∈ strip s) : c ∈ s := by
  unfold strip at hc
  rw [List.mem_reverse] at hc
  have h1 := (List.dropWhile_sublist isPyWS).mem hc
  rw [List.mem_reverse] at h1
  exact (List.dropWhile_sublist isPyWS).mem h1

theorem mem_fmtLine (ln : Str) (c : Char) (hc : c ∈ fmtLine ln) : c ∈ ln ∨ c = ' ' := by
  simp only [fmtLine] at hc
  rw [List.mem_flatten] at hc
  obtain ⟨blk, hblk, hcblk⟩ := hc
  rw [List.mem_map] at hblk
  obtain ⟨fld, hfld, rfl⟩ := hblk
  unfold ljust15 at hcblk
  rcases List.mem_append.mp hcblk with h1 | h1
  · have hfld2 := (List.mem_filter.mp hfld).1
    rw [List.mem_map] at hfld2
    obtain ⟨f, hf, rfl⟩ := hfld2
    exact Or.inl (mem_of_mem_splitOnC ',' c ln f hf (strip_subset f c h1))
  · exact Or.inr (List.mem_replicate.mp h1).2

theorem not_nl_mem_pySplitlines (s ln : Str) (h : ln ∈ pySplitlines s) : '\n' ∉ ln := by
  unfold pySplitlines at h
  by_cases h0 : s = []
  · rw [if_pos h0] at h; simp at h
  · rw [if_neg h0] at h
    by_cases h1 : s.getLast? = some '\n'
    · rw [if_pos h1] at h
      exact not_mem_splitOnC '\n' s ln ((List.dropLast_sublist _).mem h)
    · rw [if_neg h1] at h
      exact not_mem_splitOnC '\n' s ln h

/-- The output of the formatter splits back into exactly one formatted
line per surviving input line, in order. -/
theorem format_lines (content : Str) :
    pySplitlines (format_csv_like_text content)
      = ((pySplitlines content).filter (fun ln => !(strip ln).isEmpty)).map fmtLine := by
  simp only [format_csv_like_text]
  cases hout : ((pySplitlines content).filter (fun ln => !(strip ln).isEmpty)).map fmtLine with
  | nil => rfl
  | cons o os =>
    have hnotnl : ∀ l ∈ ((pySplitlines content).filter
        (fun ln => !(strip ln).isEmpty)).map fmtLine, '\n' ∉ l := by
      intro l hl
      rw [List.mem_map] at hl
      obtain ⟨ln, hln, rfl⟩ := hl
      intro hmem
      rcases mem_fmtLine ln '\n' hmem with h1 | h1
      · exact not_nl_mem_pySplitlines content ln ((List.mem_filter.mp hln).1) h1
      · exact absurd h1 (by decide)
    rw [hout] at hnotnl
    show pySplitlines (joinLines (o :: os) ++ ['\n']) = o :: os
    have hX : splitOnC '\n' (joinLines (o :: os) ++ ['\n']) = (o :: os) ++ [[]] :=
      splitOnC_joinLines (o :: os) (List.cons_ne_nil o os) hnotnl
    unfold pySplitlines
    rw [if_neg (by simp), if_pos (List.getLast?_concat _), hX, List.dropLast_concat]

theorem flatten_length_mod (ls : List Str) (h : ∀ l ∈ ls, l.length = 15) :
    ls.flatten.length % 15 = 0 := by
  induction ls with
  | nil => simp
  | cons a as ih =>
    rw [List.flatten_cons, List.length_append, h a (List.mem_cons_self a as)]
    have := ih (fun l hl => h l (List.mem_cons_of_mem a hl))
    omega

/-- C2 (amended): the formatter emits exactly one output line per
non-blank input line, and, provided every comma-separated field strips
to at most 15 characters, every output line has a length that is a
multiple of 15. -/
theorem format_line_count_and_width (content : Str) :
    (pySplitlines (format_csv_like_text content)).length
        = ((pySplitlines content).filter (fun ln => !(strip ln).isEmpty)).length
    ∧ ((∀ ln ∈ pySplitlines content, ∀ f ∈ splitOnC ',' ln, (strip f).length ≤ 15) →
        ∀ l ∈ pySplitlines (format_csv_like_text content), l.length % 15 = 0) := by
  constructor
  · rw [format_lines, List.length_map]
  · intro h15 l hl
    rw [format_lines, List.mem_map] at hl
    obtain ⟨ln, hln, rfl⟩ := hl
    have hln2 := (List.mem_filter.mp hln).1
    simp only [fmtLine]
    apply flatten_length_mod
    intro blk hblk
    rw [List.mem_map] at hblk
    obtain ⟨fld, hfld, rfl⟩ := hblk
    have h1 := (List.mem_filter.mp hfld).1
    rw [List.mem_map] at h1
    obtain ⟨f, hf, rfl⟩ := h1
    have hle := h15 ln hln2 f hf
    simp only [ljust15, List.length_append, List.length_replicate]
    omega

/-- Witness for the C2 theorem at the input "a,b" followed by a
newline: one non-blank line, output line length 30. -/
theorem format_line_count_and_width_witness :
    (pySplitlines (format_csv_like_text "a,b\n".toList)).length
        = ((pySplitlines "a,b\n".toList).filter (fun ln => !(strip ln).isEmpty)).length
    ∧ ∀ l ∈ pySplitlines (format_csv_like_text "a,b\n".toList), l.length % 15 = 0 :=
  ⟨(format_line_count_and_width "a,b\n".toList).1,
   (format_line_count_and_width "a,b\n".toList).2 (by decide)⟩

/-- C2 counterexample: on an input line of sixteen letters (one field
longer than the column width) the claim as stated fails, because
`ljust(15)` leaves a longer field unpadded, giving an output line of
length 16. -/
theorem format_width_counterexample :
    ¬ ((pySplitlines (format_csv_like_text (List.replicate 16 'a'))).length
          = ((pySplitlines (List.replicate 16 'a')).filter
              (fun ln => !(strip ln).isEmpty)).length
        ∧ ∀ l ∈ pySplitlines (format_csv_like_text (List.replicate 16 'a')),
            l.length % 15 = 0) := by
  decide

/-- C8: a line that survives the blank-line filter but whose fields all
strip to empty yields an empty output line, which is emitted, not
omitted (the output lines are exactly the formatted survivors in
order); in particular formatting "   ,  " followed by a newline gives
exactly one empty line, i.e. the single-newline output. -/
theorem empty_fields_empty_line (content : Str) :
    (∀ ln : Str, ((splitOnC ',' ln).map strip).filter (fun t => !t.isEmpty) = [] →
        fmtLine ln = [])
    ∧ pySplitlines (format_csv_like_text content)
        = ((pySplitlines content).filter (fun ln => !(strip ln).isEmpty)).map fmtLine
    ∧ format_csv_like_text "   ,  \n".toList = "\n".toList := by
  refine ⟨?_, format_lines content, by decide⟩
  intro ln h
  simp only [fmtLine, h, List.map_nil, List.flatten_nil]

/-- Witness for the C8 theorem: the line "   ,  " strips to "," (not
blank) yet has no surviving field, and its output line is empty. -/
theorem empty_fields_empty_line_witness :
    fmtLine "   ,  ".toList = []
    ∧ format_csv_like_text "   ,  \n".toList = "\n".toList :=
  ⟨(empty_fields_empty_line "   ,  \n".toList).1 "   ,  ".toList (by decide),
   (empty_fields_empty_line "   ,  \n".toList).2.2⟩

/-! ## Persistence lemmas and claims -/

theorem save_branch_paths_eq (copyOk : String → Bool) (imgs : List ImageData) :
    save_branch_paths copyOk imgs
      = (imgs.filter (fun img => copyOk img.original_path)).map
          (fun img => basename img.original_path) := by
  induction imgs with
  | nil => rfl
  | cons img rest ih =>
    simp only [save_branch_paths, List.filterMap_cons, List.filter_cons] at ih ⊢
    cases h : copyOk img.original_path with
    | false => simpa [h] using ih
    | true => simpa [h] using ih

theorem loaded_paths (dir : String) (readFile : String → Option String)
    (imgs : List ImageData) :
    ((save_branch_paths (fun _ => true) imgs).filterMap (fun imgName =>
        (readFile (joinPath dir imgName)).map (fun bytes =>
          ImageData.mk (joinPath dir imgName) bytes))).map ImageData.original_path
      = (imgs.filter (fun img =>
            (readFile (joinPath dir (basename img.original_path))).isSome)).map
          (fun img => joinPath dir (basename img.original_path)) := by
  induction imgs with
  | nil => rfl
  | cons img rest ih =>
    simp only [save_branch_paths, List.filterMap_cons, List.filter_cons] at ih ⊢
    cases hr : readFile (joinPath dir (basename img.original_path)) with
    | none => simpa [hr] using ih
    | some bytes => simpa [hr] using ih

/-- C1: saving a project to a fresh directory (all copies succeed, the
manifest is written) and loading the written manifest back reproduces
the story, the branch names and prompts in order, and gives each branch
exactly the images whose copied files are readable at load time, in the
original image order. -/
theorem save_load_round_trip (P : ProjectData) (dir : String)
    (readFile : String → Option String) (i : Nat) (bP bQ : BranchData)
    (hP : P.branches.get? i = some bP)
    (hQ : (load_project (save_manifest P (fun _ => true)) dir readFile).branches.get? i
        = some bQ) :
    (save_project P dir false (fun _ => true) true).1
        = SaveResult.ok (save_manifest P (fun _ => true))
    ∧ (load_project (save_manifest P (fun _ => true)) dir readFile).story = P.story
    ∧ (load_project (save_manifest P (fun _ => true)) dir readFile).branches.map
        BranchData.name = P.branches.map BranchData.name
    ∧ (load_project (save_manifest P (fun _ => true)) dir readFile).branches.map
        BranchData.prompt = P.branches.map BranchData.prompt
    ∧ bQ.images.map ImageData.original_path
        = (bP.images.filter (fun img =>
              (readFile (joinPath dir (basename img.original_path))).isSome)).map
            (fun img => joinPath dir (basename img.original_path)) := by
  refine ⟨rfl, rfl, ?_, ?_, ?_⟩
  · simp only [load_project, save_manifest, List.map_map]
    rfl
  · simp only [load_project, save_manifest, List.map_map]
    rfl
  · have hQ2 : (P.branches.get? i).map (fun b =>
        load_branch dir readFile
          { Name := b.name
            Prompt := b.prompt
            ImagePaths := save_branch_paths (fun _ => true) b.images }) = some bQ := by
      rw [← hQ]
      simp only [load_project, save_manifest, List.map_map,
        List.get?_eq_getElem?, List.getElem?_map]
      rfl
    rw [hP] at hQ2
    simp only [Option.map_some'] at hQ2
    cases hQ2
    exact loaded_paths dir readFile bP.images

/-- Witness for the C1 theorem: a one-branch project with two images,
of which only the copy of x.png is readable at load time. -/
theorem save_load_round_trip_witness :
    (save_project sampleProject "d" false (fun _ => true) true).1
        = SaveResult.ok (save_manifest sampleProject (fun _ => true))
    ∧ (load_project (save_manifest sampleProject (fun _ => true)) "d" sampleReadFile).story
        = sampleProject.story
    ∧ (load_project (save_manifest sampleProject (fun _ => true)) "d"
        sampleReadFile).branches.map BranchData.name
        = sampleProject.branches.map BranchData.name
    ∧ (load_project (save_manifest sampleProject (fun _ => true)) "d"
        sampleReadFile).branches.map BranchData.prompt
        = sampleProject.branches.map BranchData.prompt
    ∧ sampleBranchLoaded.images.map ImageData.original_path
        = (sampleBranchSaved.images.filter (fun img =>
              (sampleReadFile (joinPath "d" (basename img.original_path))).isSome)).map
            (fun img => joinPath "d" (basename img.original_path)) :=
  save_load_round_trip sampleProject "d" sampleReadFile 0
    sampleBranchSaved sampleBranchLoaded (by decide) (by decide)

/-- C6: saving into an already-existing destination directory reports
the already-exists error and performs no file-system write at all. -/
theorem save_existing_dir_untouched (proj : ProjectData) (projectPath : String)
    (copyOk : String → Bool) (manifestWriteOk : Bool) :
    save_project proj projectPath true copyOk manifestWriteOk
      = (SaveResult.alreadyExists, []) :=
  rfl

/-- C7: with the destination fresh, failed image copies do not abort
the save: the manifest lists exactly the successfully copied base names
in branch image order, every branch is still processed, and only a
manifest-write failure makes the save report an error. -/
theorem save_partial_copy_failures (proj : ProjectData) (projectPath : String)
    (copyOk : String → Bool) :
    (save_project proj projectPath false copyOk true).1
        = SaveResult.ok (save_manifest proj copyOk)
    ∧ (save_manifest proj copyOk).Branches.map ManifestBranch.ImagePaths
        = proj.branches.map (fun b =>
            (b.images.filter (fun img => copyOk img.original_path)).map
              (fun img => basename img.original_path))
    ∧ (save_manifest proj copyOk).Branches.length = proj.branches.length
    ∧ (save_project proj projectPath false copyOk false).1
        = SaveResult.manifestWriteFailed := by
  refine ⟨rfl, ?_, by simp [save_manifest], rfl⟩
  simp only [save_manifest, List.map_map]
  exact List.map_congr_left (fun b _ => save_branch_paths_eq copyOk b.images)

/-! ## Image-cap and branch-creation claims -/

/-- C3 counterexample: loading a manifest whose branch lists three
image paths, all readable, yields an in-memory branch with three
images — load does not enforce the two-image cap. -/
theorem load_exceeds_image_cap :
    ¬ (∀ b ∈ (load_project_app (clear_project_data sampleState) (some overfullManifest) "d"
          (fun _ => some "x")).branches, b.images.length ≤ 2) := by
  decide

/-- C3 (amended): the two-image cap is enforced at upload time only:
`upload_images` never grows a branch beyond two images, but loading a
manifest with more than two readable ImagePaths exceeds the cap (see
the counterexample). -/
theorem upload_preserves_image_cap (images : List ImageData)
    (files : List (String × Option String)) (h : images.length ≤ 2) :
    (upload_images images files).length ≤ 2 := by
  unfold upload_images
  split
  · exact h
  · split
    · exact h
    · rename_i h2
      rw [List.length_append]
      have h3 := List.length_filterMap_le (fun pr : String × Option String =>
        pr.2.map (fun bytes => ImageData.mk pr.1 bytes)) files
      omega

/-- Witness for the C3 theorem: uploading one more image to a branch
already holding two leaves it within the cap. -/
theorem upload_preserves_image_cap_witness :
    (upload_images twoImages [("c.png", some "b3")]).length ≤ 2 :=
  upload_preserves_image_cap twoImages [("c.png", some "b3")] (by decide)

/-- C4 counterexample: a whitespace-only branch name is accepted —
`if not branch_name` rejects only the empty string, so a branch named
"   " is appended, contradicting the claim that whitespace-only names
fail. -/
theorem add_branch_whitespace_accepted :
    (add_branch [] "   " 0).map BranchData.name = ["   "] := by
  decide

/-- C4 (amended): `add_branch` fails (appends nothing) exactly when the
supplied name is the empty string (which also stands for a cancelled
dialog); any other name, including whitespace-only ones, is appended as
a new branch whose prompt is drawn from the fixed prompt pool. -/
theorem add_branch_spec (branches : List BranchData) (branch_name : String) (pick : Nat) :
    (branch_name = "" → add_branch branches branch_name pick = branches)
    ∧ (branch_name ≠ "" →
        add_branch branches branch_name pick
            = branches ++ [{ name := branch_name
                             prompt := choice pick random_prompts
                             image_paths := []
                             images := [] }]
        ∧ choice pick random_prompts ∈ random_prompts) := by
  constructor
  · intro h
    simp [add_branch, h]
  · intro h
    refine ⟨by simp [add_branch, h], ?_⟩
    have hlt : pick % random_prompts.length < random_prompts.length :=
      Nat.mod_lt _ (by decide)
    simp only [choice]
    rw [List.getD_eq_getElem _ _ hlt]
    exact List.getElem_mem hlt

/-- Witness for the C4 theorem at the non-empty name "B". -/
theorem add_branch_spec_witness :
    add_branch [] "B" 0
        = [{ name := "B"
             prompt := choice 0 random_prompts
             image_paths := []
             images := [] }]
    ∧ choice 0 random_prompts ∈ random_prompts :=
  (add_branch_spec [] "B" 0).2 (by decide)

/-- C5: a batch that would push a branch past two images is rejected
whole — the image list is returned unchanged, so a branch holding two
images still holds exactly those two after the rejected upload. -/
theorem upload_over_capacity_rejected (images : List ImageData)
    (files : List (String × Option String))
    (h : images.length + files.length > 2) :
    upload_images images files = images := by
  unfold upload_images
  by_cases he : files.isEmpty = true
  · rw [if_pos he]
  · rw [if_neg he, if_pos h]

/-- Witness for the C5 theorem: a third image offered to a branch
holding two is rejected and the branch keeps exactly its two images. -/
theorem upload_over_capacity_rejected_witness :
    upload_images twoImages [("c.png", some "b3")] = twoImages :=
  upload_over_capacity_rejected twoImages [("c.png", some "b3")] (by decide)

/-! ## Controller claims -/

theorem get?_setPromptAt (bs : List BranchData) (i : Nat) (p : String) :
    (setPromptAt bs i p).get? i = (bs.get? i).map (fun b => { b with prompt := p }) := by
  induction bs generalizing i with
  | nil => simp [setPromptAt]
  | cons b rest ih =>
    cases i with
    | zero => rfl
    | succ n => exact ih n

theorem on_tree_select_branches (st : AppState) (sel : Option NodeRef) :
    (on_tree_select st sel).branches = (commit_current_prompt st).branches := by
  cases sel with
  | none => rfl
  | some node =>
    simp only [on_tree_select]
    cases h : (commit_current_prompt st).branches.get? (branch_index_of node) with
    | none => simp [h]
    | some b => simp [h]

/-- C9: selecting a node while branch `i` is active first commits the
prompt widget text into branch `i`, and the prompt then displayed is
the (already committed) prompt of the newly selected branch; with no
active branch, no branch is modified. -/
theorem on_tree_select_commits (st : AppState) (node : NodeRef) :
    (∀ i, st.current_branch = some i →
        ((on_tree_select st (some node)).branches.get? i).map BranchData.prompt
            = (st.branches.get? i).map (fun _ => rstripNl st.prompt_text)
        ∧ ∀ b, (on_tree_select st (some node)).branches.get? (branch_index_of node)
              = some b →
            (on_tree_select st (some node)).prompt_text = b.prompt)
    ∧ (st.current_branch = none → (on_tree_select st (some node)).branches = st.branches) := by
  constructor
  · intro i hi
    constructor
    · rw [on_tree_select_branches]
      simp only [commit_current_prompt, hi]
      rw [get?_setPromptAt]
      cases st.branches.get? i <;> rfl
    · intro b hb
      cases h : (commit_current_prompt st).branches.get? (branch_index_of node) with
      | some b2 =>
        simp only [on_tree_select, h] at hb ⊢
        cases hb
        rfl
      | none =>
        simp only [on_tree_select, h] at hb
        cases hb
  · intro h0
    rw [on_tree_select_branches]
    simp [commit_current_prompt, h0]

/-- Witness for the C9 theorem: switching from active branch 0 (widget
text "edited") to branch 1 stores "edited" into branch 0 and displays
branch 1's prompt "pb". -/
theorem on_tree_select_commits_witness :
    ((on_tree_select sampleState (some (NodeRef.branch 1))).branches.get? 0).map
        BranchData.prompt
        = (sampleState.branches.get? 0).map (fun _ => rstripNl sampleState.prompt_text)
    ∧ (on_tree_select sampleState (some (NodeRef.branch 1))).prompt_text = "pb" := by
  have h := (on_tree_select_commits sampleState (NodeRef.branch 1)).1 0 rfl
  exact ⟨h.1, h.2 { name := "B", prompt := "pb", image_paths := [], images := [] } (by decide)⟩

/-- C10: if reading or parsing the chosen manifest fails, load returns
with the whole in-memory state (branches, images, story, selection,
tree mapping) untouched; on success the old state is fully cleared
first, so the result does not depend on the previous state. -/
theorem load_failure_preserves_state (st st2 : AppState) (m : Manifest)
    (dir dir2 : String) (readFile readFile2 : String → Option String) :
    load_project_app st none dir readFile = st
    ∧ load_project_app st (some m) dir2 readFile2
        = load_project_app st2 (some m) dir2 readFile2 :=
  ⟨rfl, rfl⟩

end Scanner
